import Mathlib

/-!
Shallow embedding of the score-recording and stats-aggregation core of
`src/server.js` (an Express + PostgreSQL backend).

The two modelled handlers are:

* `POST /api/game-score` (src/server.js lines 121-142): destructures
  `{userId, gameType, score}` from the JSON body, rejects with a 400
  `ValidationError` when `!userId || !gameType || score === undefined`,
  and otherwise runs
  `INSERT INTO game_scores (user_id, game_type, score, played_at)
   VALUES ($1, $2, $3, CURRENT_TIMESTAMP)`.

* `GET /api/stats/:userId` (src/server.js lines 145-189): four read-only
  queries over `game_scores` filtered by `user_id` — `COUNT(*)`,
  `MAX(score)` restricted to `game_type = 'clicker'`, `MIN(score)`
  restricted to `game_type = 'memory'`, and
  `ORDER BY played_at DESC LIMIT 10` — each scalar passed through
  `parseInt(...) || 0`.

Modelling conventions:

* The `game_scores` table is a `List ScoreRecord` in insertion order
  (new rows appended at the end); `CURRENT_TIMESTAMP` is an explicit
  `now : Nat` argument.
* JSON body fields are `JSValue`s so that JavaScript truthiness and the
  `=== undefined` comparison can be stated faithfully.  `NaN` is not
  modelled: scores in this development are integers, matching the
  integer `score` column.
* SQL `MAX`/`MIN` over an empty set yield `NULL`, embedded as
  `Option.none`; `parseInt(null) || 0` is `0`, and `parseInt(v) || 0`
  is the identity on an integer `v` (`parseInt(0) || 0 = 0`), so
  `parseIntOrZero` maps `none` to `0` and `some v` to `v`.
* Each handler is a function from the pre-state (the table) to the
  response together with the post-state, so that frame conditions can
  be stated.  A `storageOk` flag models reachability of the database:
  when it is `false` the awaited `pool.query` throws and the `catch`
  branch answers with a 500 storage error.
-/

namespace NtngBack

/-- A JavaScript value as it can appear in a parsed JSON request body
field (plus `undefined` for an absent field).  Only the shapes needed
by the handlers are modelled; `NaN` does not occur since scores are
integers here. -/
inductive JSValue where
  | undefined : JSValue
  | null : JSValue
  | vbool : Bool → JSValue
  | vnum : Int → JSValue
  | vstr : String → JSValue
deriving DecidableEq, Repr

/-- JavaScript truthiness: `undefined`, `null`, `false`, `0` and `""`
are falsy, everything else modelled here is truthy. -/
def truthy : JSValue → Bool
  | JSValue.undefined => false
  | JSValue.null => false
  | JSValue.vbool b => b
  | JSValue.vnum n => n != 0
  | JSValue.vstr s => s != ""

/-- One row of the `game_scores` table: `user_id`, `game_type`,
`score`, `played_at` (src/server.js line 132). -/
structure ScoreRecord where
  userId : String
  gameType : String
  score : Int
  playedAt : Nat
deriving DecidableEq, Repr

/-- The `game_scores` table, in insertion order (newest row last). -/
abbrev Ledger := List ScoreRecord

/-- The two failure kinds of the core: a 400 from the validation guard
and a 500 from the `catch (error)` branch around the storage calls. -/
inductive ApiError where
  | validationError : ApiError
  | storageError : ApiError
deriving DecidableEq, Repr

/-- The destructured JSON body of `POST /api/game-score`
(src/server.js line 123): `const { userId, gameType, score } = req.body`. -/
structure GameScoreBody where
  userId : JSValue
  gameType : JSValue
  score : JSValue
deriving DecidableEq, Repr

/-- The validation guard of src/server.js line 126:
`if (!userId || !gameType || score === undefined)` rejects; this
function is `true` exactly when the request passes the guard. -/
def validGameScoreBody (b : GameScoreBody) : Bool :=
  truthy b.userId && truthy b.gameType && b.score != JSValue.undefined

/-- The `POST /api/game-score` handler (src/server.js lines 121-142).
Returns the response and the post-state of the table.  A failed guard
answers 400 before any storage call; with the store unreachable the
INSERT throws and the catch answers 500; otherwise the INSERT appends
one row stamped `now`.  Modelled from the spec: the `game_scores`
schema is not in src/, and per spec section 6 its `score` column is a
required integer, so an INSERT whose parameters are not two strings
and an integer is rejected by the store (`StorageError`), leaving the
table unchanged — a single-statement INSERT is atomic. -/
def handleGameScore (storageOk : Bool) (now : Nat) (b : GameScoreBody)
    (ledger : Ledger) : Except ApiError Unit × Ledger :=
  if !validGameScoreBody b then
    (Except.error ApiError.validationError, ledger)
  else if !storageOk then
    (Except.error ApiError.storageError, ledger)
  else
    match b.userId, b.gameType, b.score with
    | JSValue.vstr u, JSValue.vstr g, JSValue.vnum s =>
        (Except.ok (), ledger ++ [⟨u, g, s, now⟩])
    | _, _, _ => (Except.error ApiError.storageError, ledger)

/-- The spec's `recordScore(userId, gameType, score)` operation: the
`POST /api/game-score` handler applied to a well-typed body (string
user and game type, integer score) with the store reachable. -/
def recordScore (now : Nat) (u g : String) (s : Int) (ledger : Ledger) :
    Except ApiError Unit × Ledger :=
  handleGameScore true now ⟨JSValue.vstr u, JSValue.vstr g, JSValue.vnum s⟩ ledger

/-- Rows of `game_scores` with `user_id = $1` (the WHERE clause shared
by all four stats queries), in table insertion order. -/
def userRows (ledger : Ledger) (u : String) : List ScoreRecord :=
  ledger.filter (fun r => r.userId == u)

/-- Scores of the user's rows with `game_type = 'clicker'`
(src/server.js lines 156-159). -/
def clickerScores (ledger : Ledger) (u : String) : List Int :=
  (ledger.filter (fun r => r.userId == u && r.gameType == "clicker")).map
    (fun r => r.score)

/-- Scores of the user's rows with `game_type = 'memory'`
(src/server.js lines 162-165). -/
def memoryScores (ledger : Ledger) (u : String) : List Int :=
  (ledger.filter (fun r => r.userId == u && r.gameType == "memory")).map
    (fun r => r.score)

/-- SQL `MAX(score)`: `NULL` (`none`) on an empty set. -/
def sqlMax : List Int → Option Int
  | [] => none
  | x :: xs => some (xs.foldl max x)

/-- SQL `MIN(score)`: `NULL` (`none`) on an empty set. -/
def sqlMin : List Int → Option Int
  | [] => none
  | x :: xs => some (xs.foldl min x)

/-- The `parseInt(x) || 0` postprocessing of src/server.js lines
179-181 applied to a scalar query result: `parseInt(null)` is `NaN`,
so `NULL` becomes `0`; on an integer `v`, `parseInt(v)` is `v` and
`v || 0` is `v` for `v ≠ 0` and `0` for `v = 0`, i.e. the identity. -/
def parseIntOrZero : Option Int → Int
  | none => 0
  | some v => v

/-- Comparator realising `ORDER BY played_at DESC` on index-tagged
rows: `a` may come before `b` when `a` was played strictly later, or
at the same timestamp with `a` inserted no earlier than `b`.  The
played-at comparison is src/server.js line 172; SQL leaves the order
of equal `played_at` rows unspecified, so the tie-break is modelled
from the spec: ties broken by insertion order, most-recently-inserted
first (spec section 4.2). -/
def moreRecent (a b : Nat × ScoreRecord) : Bool :=
  b.2.playedAt < a.2.playedAt ||
    (a.2.playedAt == b.2.playedAt && b.1 ≤ a.1)

/-- The user's rows tagged with their insertion index and sorted by
the recency order (the `ORDER BY played_at DESC` of src/server.js
lines 168-175, before `LIMIT 10`). -/
def recentSorted (ledger : Ledger) (u : String) : List (Nat × ScoreRecord) :=
  (userRows ledger u).enum.mergeSort moreRecent

/-- One row of the recent-games query result: the SELECT list is
`game_type, score, played_at` (src/server.js line 169). -/
structure RecentRow where
  gameType : String
  score : Int
  playedAt : Nat
deriving DecidableEq, Repr

/-- Drop the model-internal insertion index and keep the selected
columns. -/
def toRecentRow (p : Nat × ScoreRecord) : RecentRow :=
  ⟨p.2.gameType, p.2.score, p.2.playedAt⟩

/-- The `recentGames` query result (src/server.js lines 168-175):
`ORDER BY played_at DESC LIMIT 10`. -/
def recentGames (ledger : Ledger) (u : String) : List RecentRow :=
  ((recentSorted ledger u).take 10).map toRecentRow

/-- The `stats` object of the `GET /api/stats/:userId` response
(src/server.js lines 177-184). -/
structure StatsSnapshot where
  totalGames : Nat
  bestClickerScore : Int
  bestMemoryMoves : Int
  recentGames : List RecentRow
deriving DecidableEq, Repr

/-- The stats aggregation (src/server.js lines 145-189, success path).
`totalGames` is `parseInt(COUNT(*)) || 0`; `COUNT(*)` is the
nonnegative row count and `parseInt(v) || 0` is the identity on it,
so it is the length of the user's rows. -/
def getStats (ledger : Ledger) (u : String) : StatsSnapshot :=
  { totalGames := (userRows ledger u).length
    bestClickerScore := parseIntOrZero (sqlMax (clickerScores ledger u))
    bestMemoryMoves := parseIntOrZero (sqlMin (memoryScores ledger u))
    recentGames := recentGames ledger u }

/-- The `GET /api/stats/:userId` handler (src/server.js lines
145-189): read-only; with the store unreachable the first query throws
and the catch answers 500 with no stats object; otherwise the snapshot
is computed and returned.  There is no user-existence check. -/
def handleGetStats (storageOk : Bool) (u : String) (ledger : Ledger) :
    Except ApiError StatsSnapshot × Ledger :=
  if !storageOk then
    (Except.error ApiError.storageError, ledger)
  else
    (Except.ok (getStats ledger u), ledger)

/-- One call against the core: either handler with its inputs. -/
inductive Op where
  | record : Bool → Nat → GameScoreBody → Op
  | stats : Bool → String → Op

/-- The table after one call (the response is discarded). -/
def applyOp (ledger : Ledger) : Op → Ledger
  | Op.record ok now b => (handleGameScore ok now b ledger).2
  | Op.stats ok u => (handleGetStats ok u ledger).2

/-- The table after a sequence of calls. -/
def applyOps (ledger : Ledger) : List Op → Ledger
  | [] => ledger
  | op :: ops => applyOps (applyOp ledger op) ops

/-! ### Helper lemmas -/

/-- A successful well-typed `recordScore` appends exactly one row. -/
theorem recordScore_eq {u g : String} (hu : u ≠ "") (hg : g ≠ "")
    (now : Nat) (s : Int) (ledger : Ledger) :
    recordScore now u g s ledger = (Except.ok (), ledger ++ [⟨u, g, s, now⟩]) := by
  simp [recordScore, handleGameScore, validGameScoreBody, truthy, hu, hg]

/-- The stats handler never writes. -/
theorem handleGetStats_snd (ok : Bool) (u : String) (ledger : Ledger) :
    (handleGetStats ok u ledger).2 = ledger := by
  unfold handleGetStats
  split <;> rfl

/-- A score-recording call either leaves the table unchanged or appends
exactly one row. -/
theorem handleGameScore_snd_cases (ok : Bool) (now : Nat) (b : GameScoreBody)
    (ledger : Ledger) :
    (handleGameScore ok now b ledger).2 = ledger ∨
      ∃ r, (handleGameScore ok now b ledger).2 = ledger ++ [r] := by
  unfold handleGameScore
  split
  · exact Or.inl rfl
  · split
    · exact Or.inl rfl
    · split
      · exact Or.inr ⟨_, rfl⟩
      · exact Or.inl rfl

/-- A failed score-recording call leaves the table unchanged. -/
theorem handleGameScore_error_frame (ok : Bool) (now : Nat) (b : GameScoreBody)
    (ledger : Ledger) (e : ApiError) :
    (handleGameScore ok now b ledger).1 = Except.error e →
      (handleGameScore ok now b ledger).2 = ledger := by
  unfold handleGameScore
  split
  · intro _; rfl
  · split
    · intro _; rfl
    · split
      · intro h; simp at h
      · intro _; rfl

/-- Any single call only ever appends to the table. -/
theorem applyOp_extends (ledger : Ledger) (op : Op) :
    ∃ s, applyOp ledger op = ledger ++ s := by
  cases op with
  | record ok now b =>
    rcases handleGameScore_snd_cases ok now b ledger with h | ⟨r, h⟩
    · exact ⟨[], by simp [applyOp, h]⟩
    · exact ⟨[r], by simp [applyOp, h]⟩
  | stats ok u => exact ⟨[], by simp [applyOp, handleGetStats_snd]⟩

/-- Any sequence of calls only ever appends to the table. -/
theorem applyOps_extends (ops : List Op) :
    ∀ ledger : Ledger, ∃ s, applyOps ledger ops = ledger ++ s := by
  induction ops with
  | nil => exact fun ledger => ⟨[], by simp [applyOps]⟩
  | cons op ops ih =>
    intro ledger
    rcases applyOp_extends ledger op with ⟨s₁, h₁⟩
    rcases ih (applyOp ledger op) with ⟨s₂, h₂⟩
    exact ⟨s₁ ++ s₂, by rw [applyOps, h₂, h₁, List.append_assoc]⟩

/-- The seed of a max fold is a lower bound of its result. -/
theorem le_foldl_max_seed (xs : List Int) : ∀ x : Int, x ≤ xs.foldl max x := by
  induction xs with
  | nil => intro x; simp
  | cons a xs ih =>
    intro x
    exact le_trans (le_max_left x a) (ih (max x a))

/-- Every list element is bounded by the max fold over the list. -/
theorem mem_le_foldl_max (xs : List Int) : ∀ {y x : Int}, y ∈ xs → y ≤ xs.foldl max x := by
  induction xs with
  | nil => intro y x h; cases h
  | cons a xs ih =>
    intro y x h
    rcases List.mem_cons.mp h with rfl | h
    · exact le_trans (le_max_right x y) (le_foldl_max_seed xs _)
    · exact ih h

/-- The max fold picks its value from the seed or the list. -/
theorem foldl_max_mem (xs : List Int) : ∀ x : Int, xs.foldl max x ∈ x :: xs := by
  induction xs with
  | nil => intro x; simp
  | cons a xs ih =>
    intro x
    rw [List.foldl_cons]
    rcases List.mem_cons.mp (ih (max x a)) with h | h
    · rcases max_choice x a with hm | hm
      · rw [h, hm]; exact List.mem_cons_self _ _
      · rw [h, hm]; exact List.mem_cons_of_mem _ (List.mem_cons_self _ _)
    · exact List.mem_cons_of_mem _ (List.mem_cons_of_mem _ h)

/-- The seed of a min fold is an upper bound of its result. -/
theorem foldl_min_seed_le (xs : List Int) : ∀ x : Int, xs.foldl min x ≤ x := by
  induction xs with
  | nil => intro x; simp
  | cons a xs ih =>
    intro x
    exact le_trans (ih (min x a)) (min_le_left x a)

/-- The min fold over a list is below every list element. -/
theorem foldl_min_le_mem (xs : List Int) : ∀ {y x : Int}, y ∈ xs → xs.foldl min x ≤ y := by
  induction xs with
  | nil => intro y x h; cases h
  | cons a xs ih =>
    intro y x h
    rcases List.mem_cons.mp h with rfl | h
    · exact le_trans (foldl_min_seed_le xs _) (min_le_right x y)
    · exact ih h

/-- The min fold picks its value from the seed or the list. -/
theorem foldl_min_mem (xs : List Int) : ∀ x : Int, xs.foldl min x ∈ x :: xs := by
  induction xs with
  | nil => intro x; simp
  | cons a xs ih =>
    intro x
    rw [List.foldl_cons]
    rcases List.mem_cons.mp (ih (min x a)) with h | h
    · rcases min_choice x a with hm | hm
      · rw [h, hm]; exact List.mem_cons_self _ _
      · rw [h, hm]; exact List.mem_cons_of_mem _ (List.mem_cons_self _ _)
    · exact List.mem_cons_of_mem _ (List.mem_cons_of_mem _ h)

/-- The recording handler answers with the validation error exactly when the
guard of src/server.js line 126 rejects the body. -/
theorem handleGameScore_validationError_iff (now : Nat) (ledger : Ledger)
    (b : GameScoreBody) :
    (handleGameScore true now b ledger).1 = Except.error ApiError.validationError ↔
      validGameScoreBody b = false := by
  unfold handleGameScore
  by_cases hv : validGameScoreBody b
  · simp only [hv, Bool.not_true, Bool.false_eq_true, if_false, if_neg]
    split <;> simp
  · simp [hv]

/-- Unfolding the guard condition: it rejects exactly a falsy `userId`, a
falsy `gameType`, or an absent `score`. -/
theorem validGameScoreBody_eq_false_iff (b : GameScoreBody) :
    validGameScoreBody b = false ↔
      (truthy b.userId = false ∨ truthy b.gameType = false ∨
        b.score = JSValue.undefined) := by
  cases h1 : truthy b.userId <;> cases h2 : truthy b.gameType <;>
    simp [validGameScoreBody, h1, h2, bne]

/-! ### Claim theorems -/

/-- C5: `getStats` reports `totalGames` as the number of score records whose
`userId` equals the queried user, across every game type. -/
theorem totalGames_counts_all_user_records (ledger : Ledger) (u : String) :
    (getStats ledger u).totalGames = ledger.countP (fun r => r.userId == u) := by
  simp [getStats, userRows, List.countP_eq_length_filter]

/-- C6: `getStats` succeeds for every user id without any existence check, and
a user with zero recorded games gets the snapshot
`{totalGames := 0, bestClickerScore := 0, bestMemoryMoves := 0, recentGames := []}`
rather than an error. -/
theorem getStats_no_existence_check :
    (∀ (u : String) (ledger : Ledger),
      (handleGetStats true u ledger).1 = Except.ok (getStats ledger u)) ∧
    (∀ (u : String) (ledger : Ledger), (∀ r ∈ ledger, r.userId ≠ u) →
      getStats ledger u = ⟨0, 0, 0, []⟩) := by
  refine ⟨fun u ledger => rfl, fun u ledger h => ?_⟩
  have h1 : userRows ledger u = [] := by
    simp only [userRows, List.filter_eq_nil_iff]
    intro r hr
    simpa using h r hr
  have h2 : clickerScores ledger u = [] := by
    simp only [clickerScores, List.map_eq_nil_iff, List.filter_eq_nil_iff]
    intro r hr
    simp [h r hr]
  have h3 : memoryScores ledger u = [] := by
    simp only [memoryScores, List.map_eq_nil_iff, List.filter_eq_nil_iff]
    intro r hr
    simp [h r hr]
  simp [getStats, h1, h2, h3, recentGames, recentSorted, sqlMax, sqlMin,
    parseIntOrZero]

/-- C8: both operations are atomic on failure: a `recordScore` call that fails
leaves the table unchanged, and a failed `getStats` writes nothing and returns
no partial snapshot. -/
theorem failed_calls_atomic :
    (∀ (ok : Bool) (now : Nat) (b : GameScoreBody) (ledger : Ledger) (e : ApiError),
      (handleGameScore ok now b ledger).1 = Except.error e →
        (handleGameScore ok now b ledger).2 = ledger) ∧
    (∀ (ok : Bool) (u : String) (ledger : Ledger),
      (handleGetStats ok u ledger).2 = ledger) ∧
    (∀ (ok : Bool) (u : String) (ledger : Ledger) (e : ApiError),
      (handleGetStats ok u ledger).1 = Except.error e →
        ∀ snap : StatsSnapshot, (handleGetStats ok u ledger).1 ≠ Except.ok snap) := by
  refine ⟨handleGameScore_error_frame, handleGetStats_snd, ?_⟩
  intro ok u ledger e h snap h'
  rw [h] at h'
  exact Except.noConfusion h'

/-- C9: every stored record is immutable through the public interface: any
sequence of calls only appends, the original table survives as an unchanged
prefix of the final one, and the stats handler performs no writes at all. -/
theorem score_records_immutable (ledger : Ledger) (ops : List Op) :
    (∃ s, applyOps ledger ops = ledger ++ s) ∧
    (applyOps ledger ops).take ledger.length = ledger ∧
    (∀ (ok : Bool) (u : String), (handleGetStats ok u ledger).2 = ledger) := by
  refine ⟨applyOps_extends ops ledger, ?_, fun ok u => handleGetStats_snd ok u ledger⟩
  rcases applyOps_extends ops ledger with ⟨s, h⟩
  rw [h]
  exact List.take_left ledger s

/-- C7: for every valid triple a successful `recordScore` appends exactly one
record so `totalGames` rises by exactly 1, and two calls with identical
arguments append two records (append-only, no deduplication). -/
theorem recordScore_increments_totalGames :
    ∀ (ledger : Ledger) (now₁ now₂ : Nat) (u g : String) (s : Int),
      u ≠ "" → g ≠ "" →
      ((recordScore now₁ u g s ledger).2 = ledger ++ [⟨u, g, s, now₁⟩] ∧
       (getStats (recordScore now₁ u g s ledger).2 u).totalGames =
         (getStats ledger u).totalGames + 1 ∧
       (recordScore now₂ u g s (recordScore now₁ u g s ledger).2).2 =
         ledger ++ [⟨u, g, s, now₁⟩, ⟨u, g, s, now₂⟩] ∧
       (getStats (recordScore now₂ u g s (recordScore now₁ u g s ledger).2).2
           u).totalGames =
         (getStats ledger u).totalGames + 2) := by
  intro ledger now₁ now₂ u g s hu hg
  rw [recordScore_eq hu hg]
  rw [recordScore_eq hu hg]
  refine ⟨rfl, ?_, by simp, ?_⟩
  · simp [getStats, userRows, List.filter_append]
  · simp [getStats, userRows, List.filter_append]

/-- C3: `recordScore` fails with the validation error exactly when a required
field is missing or empty; the integer 0 is a present score — the call
succeeds and the record is stored and retrievable — while an absent score is
missing and the call fails with the validation error. -/
theorem score_zero_present_absent_missing :
    (∀ (ledger : Ledger) (now : Nat) (u g : String) (s : Int),
      u ≠ "" → g ≠ "" →
      recordScore now u g s ledger = (Except.ok (), ledger ++ [⟨u, g, s, now⟩])) ∧
    (∀ (ledger : Ledger) (now : Nat) (u g : String), u ≠ "" → g ≠ "" →
      ((getStats (recordScore now u g 0 ledger).2 u).totalGames =
          (getStats ledger u).totalGames + 1 ∧
        (⟨u, g, 0, now⟩ : ScoreRecord) ∈ (recordScore now u g 0 ledger).2)) ∧
    (∀ (ledger : Ledger) (now : Nat) (b : GameScoreBody),
      b.score = JSValue.undefined →
      handleGameScore true now b ledger = (Except.error ApiError.validationError, ledger)) ∧
    (∀ (ledger : Ledger) (now : Nat) (u g : String) (sv : JSValue),
      (sv = JSValue.undefined ∨ ∃ n : Int, sv = JSValue.vnum n) →
      ((handleGameScore true now ⟨JSValue.vstr u, JSValue.vstr g, sv⟩ ledger).1 =
          Except.error ApiError.validationError ↔
        (u = "" ∨ g = "" ∨ sv = JSValue.undefined))) := by
  refine ⟨fun ledger now u g s hu hg => recordScore_eq hu hg now s ledger,
    fun ledger now u g hu hg => ?_, fun ledger now b hb => ?_, ?_⟩
  · rw [recordScore_eq hu hg]
    constructor
    · simp [getStats, userRows, List.filter_append]
    · simp
  · have hv : validGameScoreBody b = false := by
      simp [validGameScoreBody, hb]
    simp [handleGameScore, hv]
  · intro ledger now u g sv hsv
    rw [handleGameScore_validationError_iff, validGameScoreBody_eq_false_iff]
    rcases hsv with rfl | ⟨n, rfl⟩ <;>
      simp [truthy, bne]

/-- Witness for C7 at a concrete input. -/
theorem recordScore_increments_totalGames_witness :
    (getStats (recordScore 1 "alice" "clicker" 7 []).2 "alice").totalGames =
      (getStats ([] : Ledger) "alice").totalGames + 1 :=
  (recordScore_increments_totalGames [] 1 2 "alice" "clicker" 7
    (by decide) (by decide)).2.1

/-- Witness for C6 at a concrete input. -/
theorem getStats_no_existence_check_witness :
    getStats [⟨"bob", "clicker", 5, 1⟩] "alice" = ⟨0, 0, 0, []⟩ :=
  getStats_no_existence_check.2 "alice" [⟨"bob", "clicker", 5, 1⟩] (by decide)

/-- Witness for C8 at a concrete input: with the store unreachable the
recording call fails and the table is unchanged. -/
theorem failed_calls_atomic_witness :
    (handleGameScore false 1
      ⟨JSValue.vstr "alice", JSValue.vstr "clicker", JSValue.vnum 3⟩ []).2 = [] :=
  failed_calls_atomic.1 false 1
    ⟨JSValue.vstr "alice", JSValue.vstr "clicker", JSValue.vnum 3⟩ []
    ApiError.storageError rfl

/-- Witness for C3 at a concrete input: an explicit score of 0 succeeds and is
stored, an absent score is rejected with the validation error. -/
theorem score_zero_present_absent_missing_witness :
    recordScore 5 "bob" "memory" 0 [] = (Except.ok (), [⟨"bob", "memory", 0, 5⟩]) ∧
    handleGameScore true 5
        ⟨JSValue.vstr "bob", JSValue.vstr "memory", JSValue.undefined⟩ [] =
      (Except.error ApiError.validationError, []) :=
  ⟨score_zero_present_absent_missing.1 [] 5 "bob" "memory" 0 (by decide) (by decide),
   score_zero_present_absent_missing.2.2.1 [] 5
     ⟨JSValue.vstr "bob", JSValue.vstr "memory", JSValue.undefined⟩ rfl⟩

/-- The clicker-score projection distributes over table append. -/
theorem clickerScores_append (l₁ l₂ : Ledger) (u : String) :
    clickerScores (l₁ ++ l₂) u = clickerScores l₁ u ++ clickerScores l₂ u := by
  simp [clickerScores]

/-- The memory-score projection distributes over table append. -/
theorem memoryScores_append (l₁ l₂ : Ledger) (u : String) :
    memoryScores (l₁ ++ l₂) u = memoryScores l₁ u ++ memoryScores l₂ u := by
  simp [memoryScores]

/-- C1: `bestClickerScore` is the maximum score over the user's records with
game type "clicker", and `0` when there are none; in particular recording
clicker scores 50 then 30 for a user with no clicker records yields
`bestClickerScore = 50` (max semantics). -/
theorem bestClickerScore_is_max :
    (∀ (ledger : Ledger) (u : String),
      (clickerScores ledger u = [] → (getStats ledger u).bestClickerScore = 0) ∧
      (∀ s ∈ clickerScores ledger u, s ≤ (getStats ledger u).bestClickerScore) ∧
      (clickerScores ledger u ≠ [] →
        (getStats ledger u).bestClickerScore ∈ clickerScores ledger u)) ∧
    (∀ (ledger : Ledger) (u : String) (t₁ t₂ : Nat), u ≠ "" →
      clickerScores ledger u = [] →
      (getStats (recordScore t₂ u "clicker" 30
          (recordScore t₁ u "clicker" 50 ledger).2).2 u).bestClickerScore = 50) := by
  constructor
  · intro ledger u
    refine ⟨fun h => by simp [getStats, h, sqlMax, parseIntOrZero], ?_, ?_⟩
    · intro s hs
      cases hc : clickerScores ledger u with
      | nil => rw [hc] at hs; cases hs
      | cons x xs =>
        rw [hc] at hs
        have hle : s ≤ xs.foldl max x := by
          rcases List.mem_cons.mp hs with rfl | hmem
          · exact le_foldl_max_seed xs s
          · exact mem_le_foldl_max xs hmem
        simpa [getStats, hc, sqlMax, parseIntOrZero] using hle
    · intro h
      cases hc : clickerScores ledger u with
      | nil => exact absurd hc h
      | cons x xs =>
        have hmem := foldl_max_mem xs x
        simpa [getStats, hc, sqlMax, parseIntOrZero] using hmem
  · intro ledger u t₁ t₂ hu hc
    have hl : (recordScore t₂ u "clicker" 30 (recordScore t₁ u "clicker" 50 ledger).2).2
        = ledger ++ [⟨u, "clicker", 50, t₁⟩, ⟨u, "clicker", 30, t₂⟩] := by
      simp [recordScore_eq hu (show ("clicker" : String) ≠ "" by decide)]
    have h1 : clickerScores (ledger ++ [⟨u, "clicker", 50, t₁⟩,
        ⟨u, "clicker", 30, t₂⟩]) u = [50, 30] := by
      rw [clickerScores_append, hc]
      simp [clickerScores]
    have h2 : parseIntOrZero (sqlMax [(50 : Int), 30]) = 50 := by decide
    rw [hl]
    simp [getStats, h1, h2]

/-- Witness for C1 at a concrete input. -/
theorem bestClickerScore_is_max_witness :
    (getStats (recordScore 2 "alice" "clicker" 30
        (recordScore 1 "alice" "clicker" 50 []).2).2 "alice").bestClickerScore = 50 :=
  bestClickerScore_is_max.2 [] "alice" 1 2 (by decide) rfl

/-- C2: `bestMemoryMoves` is the minimum score over the user's records with
game type "memory", and `0` when there are none; in particular recording
memory scores 12 then 20 for a user with no memory records yields
`bestMemoryMoves = 12` (min semantics). -/
theorem bestMemoryMoves_is_min :
    (∀ (ledger : Ledger) (u : String),
      (memoryScores ledger u = [] → (getStats ledger u).bestMemoryMoves = 0) ∧
      (∀ s ∈ memoryScores ledger u, (getStats ledger u).bestMemoryMoves ≤ s) ∧
      (memoryScores ledger u ≠ [] →
        (getStats ledger u).bestMemoryMoves ∈ memoryScores ledger u)) ∧
    (∀ (ledger : Ledger) (u : String) (t₁ t₂ : Nat), u ≠ "" →
      memoryScores ledger u = [] →
      (getStats (recordScore t₂ u "memory" 20
          (recordScore t₁ u "memory" 12 ledger).2).2 u).bestMemoryMoves = 12) := by
  constructor
  · intro ledger u
    refine ⟨fun h => by simp [getStats, h, sqlMin, parseIntOrZero], ?_, ?_⟩
    · intro s hs
      cases hc : memoryScores ledger u with
      | nil => rw [hc] at hs; cases hs
      | cons x xs =>
        rw [hc] at hs
        have hle : xs.foldl min x ≤ s := by
          rcases List.mem_cons.mp hs with rfl | hmem
          · exact foldl_min_seed_le xs s
          · exact foldl_min_le_mem xs hmem
        simpa [getStats, hc, sqlMin, parseIntOrZero] using hle
    · intro h
      cases hc : memoryScores ledger u with
      | nil => exact absurd hc h
      | cons x xs =>
        have hmem := foldl_min_mem xs x
        simpa [getStats, hc, sqlMin, parseIntOrZero] using hmem
  · intro ledger u t₁ t₂ hu hc
    have hl : (recordScore t₂ u "memory" 20 (recordScore t₁ u "memory" 12 ledger).2).2
        = ledger ++ [⟨u, "memory", 12, t₁⟩, ⟨u, "memory", 20, t₂⟩] := by
      simp [recordScore_eq hu (show ("memory" : String) ≠ "" by decide)]
    have h1 : memoryScores (ledger ++ [⟨u, "memory", 12, t₁⟩,
        ⟨u, "memory", 20, t₂⟩]) u = [12, 20] := by
      rw [memoryScores_append, hc]
      simp [memoryScores]
    have h2 : parseIntOrZero (sqlMin [(12 : Int), 20]) = 12 := by decide
    rw [hl]
    simp [getStats, h1, h2]

/-- Witness for C2 at a concrete input. -/
theorem bestMemoryMoves_is_min_witness :
    (getStats (recordScore 2 "alice" "memory" 20
        (recordScore 1 "alice" "memory" 12 []).2).2 "alice").bestMemoryMoves = 12 :=
  bestMemoryMoves_is_min.2 [] "alice" 1 2 (by decide) rfl

/-- The recency comparator is transitive. -/
theorem moreRecent_trans : ∀ a b c : Nat × ScoreRecord,
    moreRecent a b = true → moreRecent b c = true → moreRecent a c = true := by
  intro a b c hab hbc
  simp only [moreRecent, Bool.or_eq_true, Bool.and_eq_true, decide_eq_true_eq,
    beq_iff_eq] at hab hbc ⊢
  omega

/-- The recency comparator is total. -/
theorem moreRecent_total : ∀ a b : Nat × ScoreRecord,
    (moreRecent a b || moreRecent b a) = true := by
  intro a b
  simp only [moreRecent, Bool.or_eq_true, Bool.and_eq_true, decide_eq_true_eq,
    beq_iff_eq]
  omega

/-- The sorted recent-games list is ordered by the recency comparator. -/
theorem recentSorted_pairwise (ledger : Ledger) (u : String) :
    (recentSorted ledger u).Pairwise (fun a b => moreRecent a b = true) := by
  simpa using
    List.sorted_mergeSort moreRecent_trans moreRecent_total (userRows ledger u).enum

/-- The sorted recent-games list is strictly ordered by the lexicographic
(recency, insertion-index) order: later `played_at` first, and among equal
timestamps the larger insertion index first. -/
theorem recentSorted_pairwise_strict (ledger : Ledger) (u : String) :
    (recentSorted ledger u).Pairwise (fun a b =>
      b.2.playedAt < a.2.playedAt ∨
        (a.2.playedAt = b.2.playedAt ∧ b.1 < a.1)) := by
  have hsort := recentSorted_pairwise ledger u
  have hperm : (recentSorted ledger u).Perm (userRows ledger u).enum :=
    List.mergeSort_perm _ _
  have h0 : ((userRows ledger u).enum.map Prod.fst).Nodup :=
    List.nodup_enum_map_fst _
  have h1 : (userRows ledger u).enum.Pairwise (fun a b => a.1 ≠ b.1) :=
    List.pairwise_map.mp h0
  have h2 : (recentSorted ledger u).Pairwise (fun a b => a.1 ≠ b.1) :=
    (hperm.pairwise_iff (fun h => Ne.symm h)).mpr h1
  refine (hsort.and h2).imp ?_
  intro a b h
  rcases h with ⟨hab, hne⟩
  simp only [moreRecent, Bool.or_eq_true, Bool.and_eq_true, decide_eq_true_eq,
    beq_iff_eq] at hab
  omega

/-- C4: `recentGames` is the user's at most 10 most recent records across all
game types, ordered by `playedAt` descending with ties most-recently-inserted
first: it has `min count 10` entries, is sorted newest first, the index-tagged
sorted list is a permutation of all the user's rows, the kept 10 are strictly
more recent (lexicographically in timestamp then insertion index) than every
dropped row, so with 11+ records exactly the 10 most recent are returned. -/
theorem recentGames_ten_most_recent (ledger : Ledger) (u : String) :
    (recentGames ledger u).length = min (userRows ledger u).length 10 ∧
    (recentGames ledger u).Pairwise (fun a b => b.playedAt ≤ a.playedAt) ∧
    (recentSorted ledger u).Perm (userRows ledger u).enum ∧
    ((recentSorted ledger u).take 10).Pairwise (fun a b =>
      b.2.playedAt < a.2.playedAt ∨ (a.2.playedAt = b.2.playedAt ∧ b.1 < a.1)) ∧
    (∀ p ∈ (recentSorted ledger u).take 10, ∀ q ∈ (recentSorted ledger u).drop 10,
      q.2.playedAt < p.2.playedAt ∨ (p.2.playedAt = q.2.playedAt ∧ q.1 < p.1)) := by
  have hstrict := recentSorted_pairwise_strict ledger u
  refine ⟨?_, ?_, List.mergeSort_perm _ _, hstrict.take, ?_⟩
  · simp only [recentGames, List.length_map, List.length_take, recentSorted,
      List.length_mergeSort, List.enum_length]
    omega
  · refine List.pairwise_map.mpr (hstrict.take.imp ?_)
    intro a b h
    simp only [toRecentRow]
    omega
  · have h := hstrict
    rw [← List.take_append_drop 10 (recentSorted ledger u)] at h
    exact (List.pairwise_append.mp h).2.2

/-- Witness for C4 at a concrete input with 11 records: exactly 10 remain. -/
theorem recentGames_ten_most_recent_witness :
    (recentGames (List.replicate 11 ⟨"u", "g", 1, 3⟩) "u").length =
      min (userRows (List.replicate 11 ⟨"u", "g", 1, 3⟩) "u").length 10 :=
  (recentGames_ten_most_recent (List.replicate 11 ⟨"u", "g", 1, 3⟩) "u").1

/-- C10: validation is by JavaScript truthiness except for `score`, which is
compared only against `undefined`: the recording handler answers the
validation error exactly on a falsy `userId`, a falsy `gameType`, or an
absent `score`; a `score` that is present but null, an empty string or
otherwise non-integer passes validation and is forwarded to the storage
write. -/
theorem validation_truthiness_except_score :
    (∀ (now : Nat) (ledger : Ledger) (b : GameScoreBody),
      (handleGameScore true now b ledger).1 = Except.error ApiError.validationError ↔
        (truthy b.userId = false ∨ truthy b.gameType = false ∨
          b.score = JSValue.undefined)) ∧
    (∀ (now : Nat) (ledger : Ledger) (gv sv uv : JSValue),
      (uv = JSValue.vstr "" ∨ uv = JSValue.vnum 0 ∨ uv = JSValue.null ∨
        uv = JSValue.vbool false) →
      (handleGameScore true now ⟨uv, gv, sv⟩ ledger).1 =
        Except.error ApiError.validationError) ∧
    (∀ (now : Nat) (ledger : Ledger) (uv sv gv : JSValue),
      (gv = JSValue.vstr "" ∨ gv = JSValue.vnum 0 ∨ gv = JSValue.null ∨
        gv = JSValue.vbool false) →
      (handleGameScore true now ⟨uv, gv, sv⟩ ledger).1 =
        Except.error ApiError.validationError) ∧
    (∀ (now : Nat) (ledger : Ledger) (u g : String) (sv : JSValue),
      u ≠ "" → g ≠ "" →
      (sv = JSValue.null ∨ sv = JSValue.vstr "" ∨ sv = JSValue.vbool false) →
      (handleGameScore true now ⟨JSValue.vstr u, JSValue.vstr g, sv⟩ ledger).1 ≠
        Except.error ApiError.validationError) := by
  refine ⟨?_, ?_, ?_, ?_⟩
  · intro now ledger b
    rw [handleGameScore_validationError_iff, validGameScoreBody_eq_false_iff]
  · intro now ledger gv sv uv huv
    rw [handleGameScore_validationError_iff, validGameScoreBody_eq_false_iff]
    rcases huv with rfl | rfl | rfl | rfl <;> simp [truthy]
  · intro now ledger uv sv gv hgv
    rw [handleGameScore_validationError_iff, validGameScoreBody_eq_false_iff]
    rcases hgv with rfl | rfl | rfl | rfl <;> simp [truthy]
  · intro now ledger u g sv hu hg hsv heq
    rw [handleGameScore_validationError_iff, validGameScoreBody_eq_false_iff] at heq
    rcases hsv with rfl | rfl | rfl <;> simp [truthy, bne, hu, hg] at heq

/-- Witness for C10 at concrete inputs: the numeric user id 0 is rejected as
falsy while a null score passes validation and reaches the storage write. -/
theorem validation_truthiness_except_score_witness :
    (handleGameScore true 3 ⟨JSValue.vnum 0, JSValue.vstr "g", JSValue.vnum 1⟩ []).1 =
      Except.error ApiError.validationError ∧
    (handleGameScore true 3 ⟨JSValue.vstr "u", JSValue.vstr "g", JSValue.null⟩ []).1 ≠
      Except.error ApiError.validationError :=
  ⟨validation_truthiness_except_score.2.1 3 [] (JSValue.vstr "g") (JSValue.vnum 1)
      (JSValue.vnum 0) (Or.inr (Or.inl rfl)),
   validation_truthiness_except_score.2.2.2 3 [] "u" "g" JSValue.null
      (by decide) (by decide) (Or.inl rfl)⟩

end NtngBack
